import Mathlib

/-!
Verification of the Ladoo Metrics frontend (Krishna-Rapido/internal_tools_v1).

Shallow embedding of the TypeScript sources:
* `src/frontend/src/lib/api.ts` — the API client (fetch wrappers, session store
  in `localStorage`) and the `App` component helpers,
* `src/frontend/src/components/StatisticalTests.tsx` — sample extraction,
  parameter controls and result rendering,
* the `ChartBuilder` component — the `chartData` grouping,
* `src/frontend/src/utils/exportToCSV.ts` — CSV serialization.

JavaScript numbers are modelled as `ℚ` (no floating point subtleties arise at
the precisions involved), `fetch` responses as an explicit `HttpResponse`
record carrying the `ok` flag, the body text and the parsed JSON value, and
`localStorage.session_id` as an explicit `Option String` threaded through the
operations.  A thrown `Error e` is `Except.error e.message`.
-/

namespace LadooMetrics

/-! ### Response payload types (api.ts lines 1–93, 173–197) -/

/-- `DateRange` from api.ts: optional inclusive bounds. -/
structure DateRange where
  start_date : Option String
  end_date : Option String
deriving Repr, DecidableEq

/-- `UploadResponse` from api.ts. -/
structure UploadResponse where
  session_id : String
  num_rows : ℕ
  columns : List String
  cohorts : List String
  date_min : Option String
  date_max : Option String
  metrics : List String
deriving Repr, DecidableEq

/-- `MetaResponse` from api.ts. -/
structure MetaResponse where
  cohorts : List String
  date_min : String
  date_max : String
  metrics : List String
deriving Repr, DecidableEq

/-- `TimeSeriesPoint` from api.ts (optional rolling/percent-change fields:
`undefined` and `null` are both `none`). -/
structure TimeSeriesPoint where
  date : String
  cohort : String
  metric_value : ℚ
  metric_value_roll_7 : Option ℚ
  metric_value_roll_30 : Option ℚ
  metric_value_pct_change : Option ℚ
deriving Repr, DecidableEq

/-- `SummaryStats` from api.ts: one summary per requested aggregation kind. -/
structure SummaryStats where
  aggregation : String
  test_value : ℚ
  control_value : ℚ
  mean_difference : ℚ
  pct_change : Option ℚ
deriving Repr, DecidableEq

/-- `MetricsResponse` from api.ts. -/
structure MetricsResponse where
  time_series : List TimeSeriesPoint
  summaries : List SummaryStats
deriving Repr, DecidableEq

/-- `FunnelPoint` from api.ts. -/
structure FunnelPoint where
  date : String
  cohort : String
  metric : String
  value : ℚ
deriving Repr, DecidableEq

/-- `FunnelResponse` from api.ts (`pre_summary`/`post_summary` are string-keyed
maps of numbers, modelled as association lists). -/
structure FunnelResponse where
  metrics_available : List String
  pre_series : List FunnelPoint
  post_series : List FunnelPoint
  pre_summary : List (String × ℚ)
  post_summary : List (String × ℚ)
deriving Repr, DecidableEq

/-- `CohortAggregationRow` from api.ts. -/
structure CohortAggregationRow where
  cohort : String
  totalExpCaps : ℚ
  visitedCaps : ℚ
  clickedCaptain : ℚ
  pitch_centre_card_clicked : ℚ
  pitch_centre_card_visible : ℚ
  exploredCaptains : ℚ
  exploredCaptains_Subs : ℚ
  exploredCaptains_EPKM : ℚ
  exploredCaptains_FlatCommission : ℚ
  exploredCaptains_CM : ℚ
  confirmedCaptains : ℚ
  confirmedCaptains_Subs : ℚ
  confirmedCaptains_Subs_purchased : ℚ
  confirmedCaptains_Subs_purchased_weekend : ℚ
  confirmedCaptains_EPKM : ℚ
  confirmedCaptains_FlatCommission : ℚ
  confirmedCaptains_CM : ℚ
  Visit2Click : ℚ
  Base2Visit : ℚ
deriving Repr, DecidableEq

/-- `CohortAggregationResponse` from api.ts. -/
structure CohortAggregationResponse where
  data : List CohortAggregationRow
deriving Repr, DecidableEq

/-- `MetricsRequest` from api.ts. -/
structure MetricsRequest where
  pre_period : Option DateRange
  post_period : Option DateRange
  test_cohort : Option String
  control_cohort : Option String
  aggregations : Option (List String)
  rolling_windows : Option (List ℕ)
  normalized_growth_baseline_date : Option String
deriving Repr, DecidableEq

/-- `FunnelRequest` from api.ts. -/
structure FunnelRequest where
  pre_period : Option DateRange
  post_period : Option DateRange
  test_cohort : Option String
  control_cohort : Option String
  metric : Option String
  confirmed : Option String
  test_confirmed : Option String
  control_confirmed : Option String
  agg : Option String
deriving Repr, DecidableEq

/-- `StatTestRequest` from api.ts: the four numeric samples plus the selected
test and its parameter map (string-keyed, numeric values suffice here). -/
structure StatTestRequest where
  test_category : String
  test_name : String
  parameters : List (String × ℚ)
  pre_test : List ℚ
  post_test : List ℚ
  pre_control : List ℚ
  post_control : List ℚ
deriving Repr, DecidableEq

/-- `StatTestResult` from api.ts: `summary` is the only field guaranteed to be
populated; every numeric field is optional (`undefined`/`null` are `none`).
`confidence_interval` is a JSON array of numbers. -/
structure StatTestResult where
  test_name : String
  category : String
  statistic : Option ℚ
  p_value : Option ℚ
  effect_size : Option ℚ
  confidence_interval : Option (List ℚ)
  sample_size : Option ℚ
  power : Option ℚ
  summary : String
deriving Repr, DecidableEq

/-! ### fetch model -/

/-- A settled `fetch` response: `ok` flag, the text body (`res.text()`) and the
JSON-parsed body (`res.json()`), which the client reads as type `α`. -/
structure HttpResponse (α : Type) where
  ok : Bool
  bodyText : String
  json : α
deriving Repr, DecidableEq

/-- An outgoing HTTP request as the client builds it (url, method, header
list in insertion order, and whether a body is attached). -/
structure Request where
  url : String
  method : String
  headers : List (String × String)
  hasBody : Bool
deriving Repr, DecidableEq

/-! ### Session store and headers (api.ts lines 95–110)

`localStorage.getItem('session_id')` is the ambient stored id, modelled as an
explicit `Option String` argument. -/

/-- `sessionHeaders` from api.ts: a fresh `Headers`, with `x-session-id` set
exactly when a session id is stored. -/
def sessionHeaders (stored : Option String) : List (String × String) :=
  match stored with
  | some session => [("x-session-id", session)]
  | none => []

/-! ### API operations (api.ts lines 112–212)

Each `async` operation is split into the request it issues (for the header
contract) and the handling of the settled response (for the error/return and
session-state contract).  State passing makes the `localStorage` effect
explicit: each `Run` function returns the outcome together with the stored
session id after the call. -/

/-- Request issued by `uploadCsv` (POST /upload, multipart body, no custom
headers). -/
def uploadCsvRequest (base : String) : Request :=
  { url := base ++ "/upload", method := "POST", headers := [], hasBody := true }

/-- Response handling of `uploadCsv`: on non-ok throw the body text; on ok
parse the JSON and store the returned `session_id` (overwriting any previous
value). -/
def uploadCsvRun (res : HttpResponse UploadResponse) (stored : Option String) :
    Except String UploadResponse × Option String :=
  if res.ok then (Except.ok res.json, some res.json.session_id)
  else (Except.error res.bodyText, stored)

/-- Request issued by `getMeta` (GET /meta with session headers). -/
def getMetaRequest (base : String) (stored : Option String) : Request :=
  { url := base ++ "/meta", method := "GET", headers := sessionHeaders stored,
    hasBody := false }

/-- Response handling of `getMeta`. -/
def getMetaRun (res : HttpResponse MetaResponse) : Except String MetaResponse :=
  if res.ok then Except.ok res.json else Except.error res.bodyText

/-- Request issued by `fetchMetrics` (POST /metrics, session headers then
`Content-Type: application/json`, JSON body). -/
def fetchMetricsRequest (base : String) (stored : Option String)
    (_payload : MetricsRequest) : Request :=
  { url := base ++ "/metrics", method := "POST",
    headers := sessionHeaders stored ++ [("Content-Type", "application/json")],
    hasBody := true }

/-- Response handling of `fetchMetrics`. -/
def fetchMetricsRun (res : HttpResponse MetricsResponse) :
    Except String MetricsResponse :=
  if res.ok then Except.ok res.json else Except.error res.bodyText

/-- Request issued by `fetchFunnel` (POST /funnel, session headers then
`Content-Type: application/json`, JSON body). -/
def fetchFunnelRequest (base : String) (stored : Option String)
    (_payload : FunnelRequest) : Request :=
  { url := base ++ "/funnel", method := "POST",
    headers := sessionHeaders stored ++ [("Content-Type", "application/json")],
    hasBody := true }

/-- Response handling of `fetchFunnel`. -/
def fetchFunnelRun (res : HttpResponse FunnelResponse) :
    Except String FunnelResponse :=
  if res.ok then Except.ok res.json else Except.error res.bodyText

/-- Request issued by `clearSession` (DELETE /session with session headers). -/
def clearSessionRequest (base : String) (stored : Option String) : Request :=
  { url := base ++ "/session", method := "DELETE",
    headers := sessionHeaders stored, hasBody := false }

/-- Response handling of `clearSession`: on non-ok throw the body text and
leave the stored id untouched; on ok remove the stored id. -/
def clearSessionRun (res : HttpResponse Unit) (stored : Option String) :
    Except String Unit × Option String :=
  if res.ok then (Except.ok (), none)
  else (Except.error res.bodyText, stored)

/-- Request issued by `fetchCohortAggregation` (GET /cohort-aggregation with
session headers). -/
def fetchCohortAggregationRequest (base : String) (stored : Option String) :
    Request :=
  { url := base ++ "/cohort-aggregation", method := "GET",
    headers := sessionHeaders stored, hasBody := false }

/-- Response handling of `fetchCohortAggregation`. -/
def fetchCohortAggregationRun (res : HttpResponse CohortAggregationResponse) :
    Except String CohortAggregationResponse :=
  if res.ok then Except.ok res.json else Except.error res.bodyText

/-- Request issued by `runStatisticalTest` (POST /statistical-test, session
headers then `Content-Type: application/json`, JSON body). -/
def runStatisticalTestRequest (base : String) (stored : Option String)
    (_req : StatTestRequest) : Request :=
  { url := base ++ "/statistical-test", method := "POST",
    headers := sessionHeaders stored ++ [("Content-Type", "application/json")],
    hasBody := true }

/-- Response handling of `runStatisticalTest`: on non-ok the thrown message is
`error || 'Statistical test failed'` — the body text, unless it is the empty
string (falsy), in which case the fixed fallback message. -/
def runStatisticalTestRun (res : HttpResponse StatTestResult) :
    Except String StatTestResult :=
  if res.ok then Except.ok res.json
  else Except.error (if res.bodyText = "" then "Statistical test failed" else res.bodyText)

/-! ### Backend summary computation (spec-modelled)

The value of `SummaryStats.pct_change` is computed by the Python backend,
which is not among the repository sources here (only its TypeScript
declaration, api.ts lines 32–38, is). -/

/-- Modelled from the spec: the backend summary rollup that fills a
`SummaryStats` record for one aggregation kind — missing from the sources is
the Python service behind POST /metrics.  Per §4.3 step 6 and §8 of the spec,
the percent difference is `null` exactly when the control value is zero
(never an error, never `Infinity`), and otherwise the finite relative
difference of test versus control. -/
def mkSummaryStats (agg : String) (test_value control_value : ℚ) : SummaryStats :=
  { aggregation := agg
    test_value := test_value
    control_value := control_value
    mean_difference := test_value - control_value
    pct_change :=
      if control_value = 0 then none
      else some ((test_value - control_value) / control_value * 100) }

/-! ### Sample extraction and cohort labels
(StatisticalTests.tsx lines 178–185, App lines 590–642 of the api.ts bundle) -/

/-- `SeriesPoint` from Charts.tsx as consumed by `StatisticalTests` (App maps
funnel points to `{date, cohort, value}`). -/
structure SeriesPoint where
  date : String
  cohort : String
  value : ℚ
deriving Repr, DecidableEq

/-- The four samples `extractData` builds. -/
structure ExtractedData where
  preTest : List ℚ
  postTest : List ℚ
  preControl : List ℚ
  postControl : List ℚ
deriving Repr, DecidableEq

/-- JavaScript `d.cohort === label` where `label : string | undefined`:
`false` when the label is `undefined`, exact string equality otherwise. -/
def cohortEq (c : String) (label : Option String) : Bool :=
  match label with
  | some l => c == l
  | none => false

/-- `extractData` from StatisticalTests.tsx: filter each series by exact
(`===`) equality of the point's cohort with the test/control label and keep
the values. -/
def extractData (preData postData : List SeriesPoint)
    (testCohort controlCohort : Option String) : ExtractedData :=
  { preTest := (preData.filter (fun d => cohortEq d.cohort testCohort)).map (·.value)
    postTest := (postData.filter (fun d => cohortEq d.cohort testCohort)).map (·.value)
    preControl := (preData.filter (fun d => cohortEq d.cohort controlCohort)).map (·.value)
    postControl := (postData.filter (fun d => cohortEq d.cohort controlCohort)).map (·.value) }

/-- `testLabel` in App: `` `TEST: ${filters.test_cohort}` `` when a test
cohort is selected, `undefined` otherwise. -/
def mkTestLabel (test_cohort : Option String) : Option String :=
  test_cohort.map (fun c => "TEST: " ++ c)

/-- `controlLabel` in App: `` `CONTROL: ${filters.control_cohort}` `` when a
control cohort is selected, `undefined` otherwise. -/
def mkControlLabel (control_cohort : Option String) : Option String :=
  control_cohort.map (fun c => "CONTROL: " ++ c)

/-! ### Result rendering conditions (StatisticalTests.tsx lines 446–522)

Each boolean is the guard of the corresponding JSX fragment in the results
table; the summary paragraph has no guard. -/

/-- Guard of the Test Statistic row:
`result.statistic !== undefined && result.statistic !== null`. -/
def rendersStatistic (r : StatTestResult) : Bool := r.statistic.isSome

/-- Guard of the P-value row:
`result.p_value !== undefined && result.p_value !== null`. -/
def rendersPValue (r : StatTestResult) : Bool := r.p_value.isSome

/-- Guard of the Effect Size row:
`result.effect_size !== undefined && result.effect_size !== null`. -/
def rendersEffectSize (r : StatTestResult) : Bool := r.effect_size.isSome

/-- Guard of the 95% CI row:
`result.confidence_interval && result.confidence_interval.length === 2`. -/
def rendersConfidenceInterval (r : StatTestResult) : Bool :=
  match r.confidence_interval with
  | some ci => ci.length == 2
  | none => false

/-- Guard of the Required Sample Size row:
`result.sample_size !== undefined && result.sample_size !== null`. -/
def rendersSampleSize (r : StatTestResult) : Bool := r.sample_size.isSome

/-- Guard of the Statistical Power row:
`result.power !== undefined && result.power !== null`. -/
def rendersPower (r : StatTestResult) : Bool := r.power.isSome

/-- The interpretation paragraph: rendered unconditionally, showing
`result.summary`. -/
def renderedSummary (r : StatTestResult) : String := r.summary

/-! ### Numeric parameter controls (StatisticalTests.tsx lines 311–391)

The increment/decrement buttons and the ArrowUp/ArrowDown key handlers all
compute `Math.min(1, current + 0.05)` respectively `Math.max(0, current -
0.05)` from `const currentValue = parameters[param.name] || param.default ||
0` and store `Math.round(newValue * 100) / 100`. -/

/-- `Math.round(x * 100) / 100`: round to two decimals, halves away from
negative infinity as JS `Math.round` does. -/
def round2 (x : ℚ) : ℚ := (⌊x * 100 + 1 / 2⌋ : ℚ) / 100

/-- `parameters[param.name] || param.default || 0`: the stored value unless it
is absent or falsy (0), in which case the default, unless that is falsy too. -/
def currentParamValue (stored : Option ℚ) (dflt : ℚ) : ℚ :=
  match stored with
  | some v => if v = 0 then (if dflt = 0 then 0 else dflt) else v
  | none => if dflt = 0 then 0 else dflt

/-- The increment button / ArrowUp handler: clamp above at 1, round to two
decimals. -/
def incClick (stored : Option ℚ) (dflt : ℚ) : ℚ :=
  round2 (min 1 (currentParamValue stored dflt + 5 / 100))

/-- The decrement button / ArrowDown handler: clamp below at 0, round to two
decimals. -/
def decClick (stored : Option ℚ) (dflt : ℚ) : ℚ :=
  round2 (max 0 (currentParamValue stored dflt - 5 / 100))

/-- A numeric parameter declaration from `TEST_CATEGORIES`. -/
structure ParamConfig where
  name : String
  label : String
  dflt : ℚ
deriving Repr, DecidableEq

/-- The parameters of "Independent t-test power" in
`TEST_CATEGORIES.power_and_sample_size` (lines 124–134): effect size 0.5,
alpha 0.05 and the group-1 sample size `nobs1` with default 50. -/
def independentTTestPowerParams : List ParamConfig :=
  [ { name := "effect_size", label := "Expected Effect Size", dflt := 1 / 2 }
  , { name := "alpha", label := "Significance Level", dflt := 5 / 100 }
  , { name := "nobs1", label := "Sample Size Group 1", dflt := 50 } ]

/-! ### Summary statistics (App, api.ts bundle lines 329–390)

`calculateStats` inside `calculateSummaryStats` of the App component:
`[...data].sort((a, b) => a - b)` is ascending numeric sort, modelled by an
insertion sort; `sorted[i]` is in-range at every access the code makes, so
`List.getD _ 0` is used.  The indices `Math.floor(sorted.length * 0.25)` and
`Math.floor(sorted.length * 0.75)` are `n / 4` and `3 * n / 4` in natural
division (the float products are exact at these magnitudes).  The source sets
`std = Math.sqrt(variance)`; the rational embedding carries the radicand
`variance` (population variance, divisor `n`), which determines `std`. -/

/-- Insert into an ascending list, keeping order. -/
def insertAsc (x : ℚ) : List ℚ → List ℚ
  | [] => [x]
  | y :: ys => if x ≤ y then x :: y :: ys else y :: insertAsc x ys

/-- `[...data].sort((a, b) => a - b)`: the ascending sort of the sample. -/
def sortAsc (l : List ℚ) : List ℚ := l.foldr insertAsc []

/-- The record `calculateStats` returns (with `variance` standing for the
radicand of `std`, see section comment). -/
structure GroupStats where
  mean : ℚ
  median : ℚ
  p25 : ℚ
  p75 : ℚ
  variance : ℚ
  count : ℕ
deriving Repr, DecidableEq

/-- `calculateStats` from the App component. -/
def calculateStats (data : List ℚ) : GroupStats :=
  if data.length = 0 then
    { mean := 0, median := 0, p25 := 0, p75 := 0, variance := 0, count := 0 }
  else
    let sorted := sortAsc data
    let mean := data.sum / (data.length : ℚ)
    let median :=
      if sorted.length % 2 = 0 then
        (sorted.getD (sorted.length / 2 - 1) 0 + sorted.getD (sorted.length / 2) 0) / 2
      else sorted.getD (sorted.length / 2) 0
    let p25 := sorted.getD (sorted.length / 4) 0
    let p75 := sorted.getD (3 * sorted.length / 4) 0
    let variance := (data.map (fun val => (val - mean) ^ 2)).sum / (data.length : ℚ)
    { mean := mean, median := median, p25 := p25, p75 := p75,
      variance := variance, count := data.length }

/-! ### CSV export (exportToCSV.ts lines 10–34)

A cell of the row object is `Option String`: `none` for `null`/`undefined`,
`some s` for a non-null value whose `String(value)` form is `s`.  A row is a
function from column name to cell, matching `row[col]`. -/

/-- `DataFrameJSON` as `convertToCSV` consumes it. -/
structure DataFrameJSON where
  columns : List String
  data : List (String → Option String)

/-- Whether the cell text triggers quoting:
`stringValue.includes(',') || stringValue.includes('"') || stringValue.includes('\n')`. -/
def needsEscape (s : String) : Bool :=
  s.data.any (fun c => c == ',' || c == '"' || c == '\n')

/-- `stringValue.replace(/"/g, '""')` at the character level: every double
quote becomes two. -/
def doubleChars : List Char → List Char
  | [] => []
  | c :: cs => if c = '"' then '"' :: '"' :: doubleChars cs else c :: doubleChars cs

/-- The string form of `replace(/"/g, '""')`. -/
def doubleQuotes (s : String) : String := ⟨doubleChars s.data⟩

/-- One cell as `convertToCSV` emits it: empty for `null`/`undefined`, quoted
with doubled inner quotes when the text contains a comma, double quote or
newline, verbatim otherwise. -/
def escapeCell (v : Option String) : String :=
  match v with
  | none => ""
  | some s => if needsEscape s then "\"" ++ doubleQuotes s ++ "\"" else s

/-- One data row of the CSV: the cells of the row in column order, joined by
commas. -/
def csvRow (columns : List String) (row : String → Option String) : String :=
  String.intercalate "," (columns.map (fun col => escapeCell (row col)))

/-- `convertToCSV`: the header (column names joined by commas) followed by one
entry per data row, all joined by newlines. -/
def convertToCSV (df : DataFrameJSON) : String :=
  String.intercalate "\n" (String.intercalate "," df.columns ::
    df.data.map (csvRow df.columns))

/-- Halve doubled double quotes, scanning left to right (the inverse step of
the claim's unescaping procedure). -/
def halveChars : List Char → List Char
  | [] => []
  | [c] => [c]
  | c1 :: c2 :: rest =>
    if c1 = '"' ∧ c2 = '"' then '"' :: halveChars rest
    else c1 :: halveChars (c2 :: rest)
termination_by l => l.length

/-- Unescape a quoted field as the claim describes: strip the outer quotes,
then halve each doubled double quote. -/
def unescapeQuoted (s : String) : String :=
  ⟨halveChars ((s.data.drop 1).dropLast)⟩

/-! ### ChartBuilder grouping (ChartBuilder.tsx, `chartData` useMemo)

A plain JS object with string keys preserves insertion order for
non-index-like keys, so `grouped` (and each inner record) is an association
list to which new keys are appended at the end.  A row is projected onto the
currently selected columns: `xval` is `String(row[xAxis])`, `sval` is
`String(row[series])`, and `yval y` is the numeric coercion of `row[y]` —
`some q` when `Number(row[y]) = q`, `none` when the cell is not coercible
(`NaN`).  `Number(row[yAxis]) || 0` maps `NaN` (and `0`) to `0`. -/

/-- `Number(cell) || 0`. -/
def toNum (v : Option ℚ) : ℚ := v.getD 0

/-- An input row, projected onto the selected x-axis, series and metric
columns. -/
structure CRow where
  xval : String
  sval : String
  yval : String → Option ℚ

/-- First-match lookup in an association list (JS property read). -/
def lookupA {α : Type} (k : String) : List (String × α) → Option α
  | [] => none
  | (k', v) :: rest => if k' = k then some v else lookupA k rest

/-- Update the first entry with the given key, if any (JS property write to an
existing key). -/
def updA {α : Type} (k : String) (f : α → α) : List (String × α) → List (String × α)
  | [] => []
  | (k', v) :: rest => if k' = k then (k', f v) :: rest else (k', v) :: updA k f rest

/-- `obj[key] = (obj[key] || 0) + v`: add to an existing key or append it. -/
def upsertAdd (k : String) (v : ℚ) (l : List (String × ℚ)) : List (String × ℚ) :=
  match lookupA k l with
  | some old => updA k (fun _ => old + v) l
  | none => l ++ [(k, v)]

/-- No-series branch, record initialization: every selected metric starts
at 0 (`grouped[xValue][yAxis] = 0`). -/
def nsZero (yAxes : List String) : List (String × ℚ) :=
  yAxes.map (fun y => (y, 0))

/-- No-series branch, accumulation for one row:
`grouped[xValue][yAxis] += Number(row[yAxis]) || 0` for each selected
metric. -/
def nsAdd (yAxes : List String) (r : CRow) (rec : List (String × ℚ)) :
    List (String × ℚ) :=
  yAxes.foldl (fun acc y => updA y (fun v => v + toNum (r.yval y)) acc) rec

/-- No-series branch, one `forEach` step: create the record for a fresh
x-value (all metrics 0), then accumulate the row into it. -/
def nsStep (yAxes : List String) (g : List (String × List (String × ℚ)))
    (r : CRow) : List (String × List (String × ℚ)) :=
  let g1 := if (lookupA r.xval g).isSome then g else g ++ [(r.xval, nsZero yAxes)]
  updA r.xval (nsAdd yAxes r) g1

/-- `chartData` with no series selected: fold the rows into `grouped`
(`Object.values` drops only the key order, which is immaterial here; the
`[xAxis]: xValue` field of each record is carried as the association key).
The `useMemo` guard returns `[]` when no metric is selected. -/
def chartDataNS (yAxes : List String) (rows : List CRow) :
    List (String × List (String × ℚ)) :=
  if yAxes = [] then [] else rows.foldl (nsStep yAxes) []

/-- The dynamic record key of the series branch:
`` `${yAxis}_${seriesValue}` ``. -/
def sKey (y s : String) : String := y ++ "_" ++ s

/-- Series branch, accumulation for one row:
`grouped[xValue][key] = (grouped[xValue][key] || 0) + yValue` for each
selected metric, with `key = sKey y row.sval` and
`yValue = Number(row[yAxis]) || 0`. -/
def srAdd (yAxes : List String) (r : CRow) (rec : List (String × ℚ)) :
    List (String × ℚ) :=
  yAxes.foldl (fun acc y => upsertAdd (sKey y r.sval) (toNum (r.yval y)) acc) rec

/-- Series branch, one `forEach` step: a fresh x-value starts from an empty
record (only the `[xAxis]: xValue` field, carried as the outer key), then the
row is accumulated. -/
def srStep (yAxes : List String) (g : List (String × List (String × ℚ)))
    (r : CRow) : List (String × List (String × ℚ)) :=
  let g1 := if (lookupA r.xval g).isSome then g else g ++ [(r.xval, [])]
  updA r.xval (srAdd yAxes r) g1

/-- `chartData` with a series column selected. -/
def chartDataSR (yAxes : List String) (rows : List CRow) :
    List (String × List (String × ℚ)) :=
  if yAxes = [] then [] else rows.foldl (srStep yAxes) []

/-- The contribution of one row to the value at record key `k` in the series
branch: the sum over the selected metrics whose key for this row's series
value is `k` (distinct pairs can collide on the same key). -/
def srContrib (yAxes : List String) (k : String) (r : CRow) : ℚ :=
  ((yAxes.filter (fun y => sKey y r.sval == k)).map (fun y => toNum (r.yval y))).sum

/-- The value the no-series branch owes record `x` at metric `y`: the sum of
the coerced metric over the rows with that x-value. -/
def nsSum (rows : List CRow) (x y : String) : ℚ :=
  ((rows.filter (fun r => r.xval == x)).map (fun r => toNum (r.yval y))).sum

/-- The value the series branch owes record `x` at key `k`: the sum of the
per-row contributions over the rows with that x-value. -/
def srSum (yAxes : List String) (rows : List CRow) (x k : String) : ℚ :=
  ((rows.filter (fun r => r.xval == x)).map (srContrib yAxes k)).sum

/-! ## Theorems -/

/-- C2: for every summary produced for a requested aggregation kind, the
`pct_change` field is null exactly when the control value is zero; a zero
control never raises and a nonzero control always yields a finite rational,
never an infinity (the embedding is total over `ℚ`). -/
theorem pct_change_null_iff_control_zero (agg : String) (test_value control_value : ℚ) :
    (mkSummaryStats agg test_value control_value).pct_change = none ↔ control_value = 0 := by
  by_cases h : control_value = 0 <;> simp [mkSummaryStats, h]

/-- C4: in every `StatTestResult` the `summary` field is present (a `String`,
rendered unconditionally as the interpretation paragraph), while each numeric
field is optional and its table row is rendered exactly when the field is
present and non-null (for the confidence interval: present with exactly two
endpoints). -/
theorem statTestResult_rendering :
    (∀ r : StatTestResult, renderedSummary r = r.summary) ∧
    (∀ r : StatTestResult, rendersStatistic r = true ↔ r.statistic ≠ none) ∧
    (∀ r : StatTestResult, rendersPValue r = true ↔ r.p_value ≠ none) ∧
    (∀ r : StatTestResult, rendersEffectSize r = true ↔ r.effect_size ≠ none) ∧
    (∀ r : StatTestResult, rendersConfidenceInterval r = true ↔
      ∃ ci, r.confidence_interval = some ci ∧ ci.length = 2) ∧
    (∀ r : StatTestResult, rendersSampleSize r = true ↔ r.sample_size ≠ none) ∧
    (∀ r : StatTestResult, rendersPower r = true ↔ r.power ≠ none) := by
  refine ⟨fun r => rfl, fun r => ?_, fun r => ?_, fun r => ?_, fun r => ?_,
    fun r => ?_, fun r => ?_⟩
  · simp [rendersStatistic, Option.isSome_iff_ne_none]
  · simp [rendersPValue, Option.isSome_iff_ne_none]
  · simp [rendersEffectSize, Option.isSome_iff_ne_none]
  · cases h : r.confidence_interval with
    | none => simp [rendersConfidenceInterval, h]
    | some ci => simp [rendersConfidenceInterval, h]
  · simp [rendersSampleSize, Option.isSome_iff_ne_none]
  · simp [rendersPower, Option.isSome_iff_ne_none]

/-- C6: every session-scoped request carries the `x-session-id` header with
the stored id exactly when a session id is stored, and when none is stored
the request is still built (with the other headers unchanged) rather than
rejected client-side. -/
theorem session_header_contract (stored : Option String) (id base : String)
    (payloadM : MetricsRequest) (payloadF : FunnelRequest) (req : StatTestRequest) :
    (("x-session-id", id) ∈ (getMetaRequest base stored).headers ↔ stored = some id) ∧
    (("x-session-id", id) ∈ (fetchMetricsRequest base stored payloadM).headers ↔ stored = some id) ∧
    (("x-session-id", id) ∈ (fetchFunnelRequest base stored payloadF).headers ↔ stored = some id) ∧
    (("x-session-id", id) ∈ (fetchCohortAggregationRequest base stored).headers ↔ stored = some id) ∧
    (("x-session-id", id) ∈ (runStatisticalTestRequest base stored req).headers ↔ stored = some id) ∧
    (("x-session-id", id) ∈ (clearSessionRequest base stored).headers ↔ stored = some id) ∧
    (getMetaRequest base none).headers = [] ∧
    (fetchMetricsRequest base none payloadM).headers = [("Content-Type", "application/json")] ∧
    (fetchFunnelRequest base none payloadF).headers = [("Content-Type", "application/json")] ∧
    (fetchCohortAggregationRequest base none).headers = [] ∧
    (runStatisticalTestRequest base none req).headers = [("Content-Type", "application/json")] ∧
    (clearSessionRequest base none).headers = [] := by
  cases stored with
  | none =>
    refine ⟨?_, ?_, ?_, ?_, ?_, ?_, rfl, rfl, rfl, rfl, rfl, rfl⟩ <;>
      simp [getMetaRequest, fetchMetricsRequest, fetchFunnelRequest,
        fetchCohortAggregationRequest, runStatisticalTestRequest,
        clearSessionRequest, sessionHeaders]
  | some s =>
    refine ⟨?_, ?_, ?_, ?_, ?_, ?_, rfl, rfl, rfl, rfl, rfl, rfl⟩ <;>
      simp [getMetaRequest, fetchMetricsRequest, fetchFunnelRequest,
        fetchCohortAggregationRequest, runStatisticalTestRequest,
        clearSessionRequest, sessionHeaders, eq_comm]

/-- C7: `uploadCsv` on a successful response stores the server-returned
`session_id`, overwriting whatever was stored; on a failed response it throws
the body text and leaves the stored id unchanged.  `clearSession` removes the
stored id exactly on a successful DELETE; on a failed one it throws the body
text and leaves the stored id unchanged. -/
theorem session_id_lifecycle (res : HttpResponse UploadResponse)
    (resD : HttpResponse Unit) (stored : Option String) :
    (res.ok = true →
      uploadCsvRun res stored = (Except.ok res.json, some res.json.session_id)) ∧
    (res.ok = false →
      uploadCsvRun res stored = (Except.error res.bodyText, stored)) ∧
    (resD.ok = true → clearSessionRun resD stored = (Except.ok (), none)) ∧
    (resD.ok = false →
      clearSessionRun resD stored = (Except.error resD.bodyText, stored)) := by
  refine ⟨fun h => ?_, fun h => ?_, fun h => ?_, fun h => ?_⟩ <;>
    simp [uploadCsvRun, clearSessionRun, h]

/-- Witness for C7 at concrete responses and a previously stored id. -/
theorem session_id_lifecycle_witness :
    (uploadCsvRun
        { ok := true, bodyText := "",
          json := { session_id := "fresh", num_rows := 2, columns := ["date"],
                    cohorts := ["A"], date_min := none, date_max := none,
                    metrics := ["m"] } }
        (some "old")
      = (Except.ok
          { session_id := "fresh", num_rows := 2, columns := ["date"],
            cohorts := ["A"], date_min := none, date_max := none,
            metrics := ["m"] }, some "fresh")) ∧
    (clearSessionRun { ok := false, bodyText := "boom", json := () } (some "old")
      = (Except.error "boom", some "old")) :=
  ⟨(session_id_lifecycle
      { ok := true, bodyText := "",
        json := { session_id := "fresh", num_rows := 2, columns := ["date"],
                  cohorts := ["A"], date_min := none, date_max := none,
                  metrics := ["m"] } }
      { ok := false, bodyText := "boom", json := () } (some "old")).1 rfl,
   (session_id_lifecycle
      { ok := true, bodyText := "",
        json := { session_id := "fresh", num_rows := 2, columns := ["date"],
                  cohorts := ["A"], date_min := none, date_max := none,
                  metrics := ["m"] } }
      { ok := false, bodyText := "boom", json := () } (some "old")).2.2.2 rfl⟩

/-- C1 (counterexample): `runStatisticalTest` on a failed response whose body
text is empty throws the fixed message "Statistical test failed", not the
response body text (which is the empty string). -/
theorem runStatisticalTest_default_message_cex :
    runStatisticalTestRun
        { ok := false, bodyText := "",
          json := { test_name := "t", category := "c", statistic := none,
                    p_value := none, effect_size := none,
                    confidence_interval := none, sample_size := none,
                    power := none, summary := "s" } }
      = Except.error "Statistical test failed" ∧
    "Statistical test failed" ≠ "" := by
  exact ⟨rfl, by decide⟩

/-- C1 (amended): on a non-ok response every client operation throws, with the
message being exactly the response body text — except `runStatisticalTest`,
which substitutes the fixed message "Statistical test failed" when the body
text is empty; on an ok response every operation returns the parsed JSON body
(`clearSession` resolves with no value). -/
theorem apiClient_error_propagation
    (resU : HttpResponse UploadResponse) (resM : HttpResponse MetaResponse)
    (resMe : HttpResponse MetricsResponse) (resF : HttpResponse FunnelResponse)
    (resD : HttpResponse Unit) (resC : HttpResponse CohortAggregationResponse)
    (resS : HttpResponse StatTestResult) (stored : Option String) :
    (resU.ok = false → (uploadCsvRun resU stored).1 = Except.error resU.bodyText) ∧
    (resU.ok = true → (uploadCsvRun resU stored).1 = Except.ok resU.json) ∧
    (resM.ok = false → getMetaRun resM = Except.error resM.bodyText) ∧
    (resM.ok = true → getMetaRun resM = Except.ok resM.json) ∧
    (resMe.ok = false → fetchMetricsRun resMe = Except.error resMe.bodyText) ∧
    (resMe.ok = true → fetchMetricsRun resMe = Except.ok resMe.json) ∧
    (resF.ok = false → fetchFunnelRun resF = Except.error resF.bodyText) ∧
    (resF.ok = true → fetchFunnelRun resF = Except.ok resF.json) ∧
    (resD.ok = false → (clearSessionRun resD stored).1 = Except.error resD.bodyText) ∧
    (resD.ok = true → (clearSessionRun resD stored).1 = Except.ok ()) ∧
    (resC.ok = false → fetchCohortAggregationRun resC = Except.error resC.bodyText) ∧
    (resC.ok = true → fetchCohortAggregationRun resC = Except.ok resC.json) ∧
    (resS.ok = false → resS.bodyText ≠ "" →
      runStatisticalTestRun resS = Except.error resS.bodyText) ∧
    (resS.ok = false → resS.bodyText = "" →
      runStatisticalTestRun resS = Except.error "Statistical test failed") ∧
    (resS.ok = true → runStatisticalTestRun resS = Except.ok resS.json) := by
  refine ⟨fun h => ?_, fun h => ?_, fun h => ?_, fun h => ?_, fun h => ?_,
    fun h => ?_, fun h => ?_, fun h => ?_, fun h => ?_, fun h => ?_,
    fun h => ?_, fun h => ?_, fun h h2 => ?_, fun h h2 => ?_, fun h => ?_⟩ <;>
    simp [uploadCsvRun, getMetaRun, fetchMetricsRun, fetchFunnelRun,
      clearSessionRun, fetchCohortAggregationRun, runStatisticalTestRun, h] <;>
    simp [h2]

/-- Witness for C1 at concrete responses: a failed `getMeta` throws the body
text, an ok `fetchMetrics` returns the parsed body, and a failed
`runStatisticalTest` with non-empty body throws the body text. -/
theorem apiClient_error_propagation_witness :
    getMetaRun
        { ok := false, bodyText := "no session",
          json := { cohorts := [], date_min := "", date_max := "", metrics := [] } }
      = Except.error "no session" ∧
    fetchMetricsRun
        { ok := true, bodyText := "",
          json := { time_series := [], summaries := [] } }
      = Except.ok { time_series := [], summaries := [] } ∧
    runStatisticalTestRun
        { ok := false, bodyText := "bad input",
          json := { test_name := "t", category := "c", statistic := none,
                    p_value := none, effect_size := none,
                    confidence_interval := none, sample_size := none,
                    power := none, summary := "s" } }
      = Except.error "bad input" := by
  have h := apiClient_error_propagation
    { ok := true, bodyText := "",
      json := { session_id := "", num_rows := 0, columns := [], cohorts := [],
                date_min := none, date_max := none, metrics := [] } }
    { ok := false, bodyText := "no session",
      json := { cohorts := [], date_min := "", date_max := "", metrics := [] } }
    { ok := true, bodyText := "", json := { time_series := [], summaries := [] } }
    { ok := true, bodyText := "",
      json := { metrics_available := [], pre_series := [], post_series := [],
                pre_summary := [], post_summary := [] } }
    { ok := true, bodyText := "", json := () }
    { ok := true, bodyText := "", json := { data := [] } }
    { ok := false, bodyText := "bad input",
      json := { test_name := "t", category := "c", statistic := none,
                p_value := none, effect_size := none,
                confidence_interval := none, sample_size := none,
                power := none, summary := "s" } }
    none
  exact ⟨h.2.2.1 rfl, h.2.2.2.2.2.1 rfl, h.2.2.2.2.2.2.2.2.2.2.2.2.1 rfl (by decide)⟩

/-- C3: `extractData` selects the four samples by exact string equality of the
point's cohort with the labels `TEST: <cohort>` / `CONTROL: <cohort>` built by
the App component, so a point whose cohort equals neither label contributes to
none of the four samples — inserting such a point anywhere into either input
series leaves all four extracted samples unchanged. -/
theorem extractData_label_filtering
    (front back other : List SeriesPoint) (d : SeriesPoint)
    (test_cohort control_cohort : Option String)
    (hT : some d.cohort ≠ mkTestLabel test_cohort)
    (hC : some d.cohort ≠ mkControlLabel control_cohort) :
    extractData (front ++ d :: back) other
        (mkTestLabel test_cohort) (mkControlLabel control_cohort)
      = extractData (front ++ back) other
        (mkTestLabel test_cohort) (mkControlLabel control_cohort) ∧
    extractData other (front ++ d :: back)
        (mkTestLabel test_cohort) (mkControlLabel control_cohort)
      = extractData other (front ++ back)
        (mkTestLabel test_cohort) (mkControlLabel control_cohort) := by
  have hTb : cohortEq d.cohort (mkTestLabel test_cohort) = false := by
    cases test_cohort with
    | none => rfl
    | some c =>
      show (d.cohort == "TEST: " ++ c) = false
      refine beq_eq_false_iff_ne.mpr fun hEq => hT ?_
      simp [mkTestLabel, hEq]
  have hCb : cohortEq d.cohort (mkControlLabel control_cohort) = false := by
    cases control_cohort with
    | none => rfl
    | some c =>
      show (d.cohort == "CONTROL: " ++ c) = false
      refine beq_eq_false_iff_ne.mpr fun hEq => hC ?_
      simp [mkControlLabel, hEq]
  constructor <;>
    simp [extractData, List.filter_append, List.filter_cons, hTb, hCb]

/-- Witness for C3: a point with cohort "other" is invisible to the samples
extracted for cohorts "A" (test) and "B" (control). -/
theorem extractData_label_filtering_witness :
    some "other" ≠ mkTestLabel (some "A") ∧
    some "other" ≠ mkControlLabel (some "B") ∧
    (extractData
        ([⟨"2025-01-01", "TEST: A", 10⟩] ++
          ⟨"2025-01-01", "other", 99⟩ :: [⟨"2025-01-01", "CONTROL: B", 20⟩])
        [⟨"2025-01-02", "TEST: A", 14⟩]
        (mkTestLabel (some "A")) (mkControlLabel (some "B"))
      = extractData
        ([⟨"2025-01-01", "TEST: A", 10⟩] ++ [⟨"2025-01-01", "CONTROL: B", 20⟩])
        [⟨"2025-01-02", "TEST: A", 14⟩]
        (mkTestLabel (some "A")) (mkControlLabel (some "B"))) :=
  ⟨by decide, by decide,
    (extractData_label_filtering
      [⟨"2025-01-01", "TEST: A", 10⟩] [⟨"2025-01-01", "CONTROL: B", 20⟩]
      [⟨"2025-01-02", "TEST: A", 14⟩] ⟨"2025-01-01", "other", 99⟩
      (some "A") (some "B") (by decide) (by decide)).1⟩

/-! Helper bounds for the two-decimal rounding of the parameter controls. -/

/-- `round2` is monotone. -/
theorem round2_mono {x y : ℚ} (h : x ≤ y) : round2 x ≤ round2 y := by
  unfold round2
  have : (⌊x * 100 + 1 / 2⌋ : ℤ) ≤ ⌊y * 100 + 1 / 2⌋ :=
    Int.floor_le_floor (by nlinarith)
  have h2 : ((⌊x * 100 + 1 / 2⌋ : ℤ) : ℚ) ≤ ((⌊y * 100 + 1 / 2⌋ : ℤ) : ℚ) := by
    exact_mod_cast this
  linarith

/-- `round2` of a value that is at most 1 is at most 1. -/
theorem round2_le_one {x : ℚ} (h : x ≤ 1) : round2 x ≤ 1 := by
  calc round2 x ≤ round2 1 := round2_mono h
    _ = 1 := by norm_num [round2]

/-- `round2` of a nonnegative value is nonnegative. -/
theorem round2_nonneg {x : ℚ} (h : 0 ≤ x) : 0 ≤ round2 x := by
  have : round2 0 ≤ round2 x := round2_mono h
  have h0 : round2 0 = 0 := by norm_num [round2]
  linarith

/-- `round2` overshoots its argument by less than half a cent. -/
theorem round2_le_add {x : ℚ} : round2 x ≤ x + 1 / 200 := by
  unfold round2
  have : ((⌊x * 100 + 1 / 2⌋ : ℤ) : ℚ) ≤ x * 100 + 1 / 2 := Int.floor_le _
  linarith

/-- C10 (counterexample): with `nobs1` (default 50 in the independent t-test
power configuration), the very first decrement stores 49.95 — not a value in
[0,1] — and a decrement at stored value 0 (reachable via the controls, as the
chain 50 → 1 → … → 0.05 → 0 shows) jumps back to 49.95, raising the value
above 1 through the controls. -/
theorem paramControls_cex :
    ((independentTTestPowerParams.filter (fun p => p.name == "nobs1")).map
        ParamConfig.dflt) = [50] ∧
    decClick (some 50) 50 = 999 / 20 ∧ ¬ ((999 : ℚ) / 20 ≤ 1) ∧
    incClick (some 50) 50 = 1 ∧
    decClick (some (1 / 20)) 50 = 0 ∧
    decClick (some 0) 50 = 999 / 20 ∧ (1 : ℚ) < 999 / 20 := by
  refine ⟨by decide, ?_, by norm_num, ?_, ?_, ?_, by norm_num⟩ <;>
    norm_num [decClick, incClick, currentParamValue, round2]

/-- C10 (amended): every increment stores `round2 (min 1 (current + 0.05))`
and every decrement `round2 (max 0 (current - 0.05))`, where `current` falls
back to the parameter default when the stored value is absent or 0; each
operation clamps only one end, so a current value outside [0,1] (such as the
untouched `nobs1` default 50, or the default re-entering at stored 0) is not
forced into [0,1] by a decrement.  Still: an increment never stores more than
1, a decrement never stores less than 0, from a current value inside [0,1]
both controls stay inside [0,1], and a decrement that stores a value above 1
always stores strictly less than the current value — so the controls never
push a value further above 1. -/
theorem paramControls_amended (stored : Option ℚ) (dflt : ℚ) :
    incClick stored dflt ≤ 1 ∧
    0 ≤ decClick stored dflt ∧
    (0 ≤ currentParamValue stored dflt → currentParamValue stored dflt ≤ 1 →
      0 ≤ incClick stored dflt ∧ incClick stored dflt ≤ 1 ∧
      0 ≤ decClick stored dflt ∧ decClick stored dflt ≤ 1) ∧
    (1 < decClick stored dflt →
      decClick stored dflt < currentParamValue stored dflt) := by
  set cur := currentParamValue stored dflt with hcur
  refine ⟨?_, ?_, fun h0 h1 => ⟨?_, ?_, ?_, ?_⟩, fun hgt => ?_⟩
  · exact round2_le_one (min_le_left _ _)
  · exact round2_nonneg (le_max_left _ _)
  · refine round2_nonneg ?_
    rcases le_or_lt (cur + 5 / 100) 1 with h | h
    · rw [min_eq_right h]; linarith
    · rw [min_eq_left (le_of_lt h)]; norm_num
  · exact round2_le_one (min_le_left _ _)
  · exact round2_nonneg (le_max_left _ _)
  · refine round2_le_one ?_
    rcases le_or_lt (cur - 5 / 100) 0 with h | h
    · rw [max_eq_left h]; norm_num
    · rw [max_eq_right (le_of_lt h)]; linarith
  · by_cases h : cur - 5 / 100 ≤ 0
    · exfalso
      have : decClick stored dflt = round2 0 := by
        rw [decClick, ← hcur, max_eq_left h]
      rw [this] at hgt
      norm_num [round2] at hgt
    · push_neg at h
      have heq : decClick stored dflt = round2 (cur - 5 / 100) := by
        rw [decClick, ← hcur, max_eq_right (le_of_lt h)]
      have := @round2_le_add (cur - 5 / 100)
      rw [heq]
      linarith

/-- Witness for C10 (amended) at stored value 0.5, default 50: the controls
stay inside [0,1]. -/
theorem paramControls_amended_witness :
    (0 ≤ currentParamValue (some (1 / 2)) 50 ∧
      currentParamValue (some (1 / 2)) 50 ≤ 1) ∧
    (0 ≤ incClick (some (1 / 2)) 50 ∧ incClick (some (1 / 2)) 50 ≤ 1 ∧
      0 ≤ decClick (some (1 / 2)) 50 ∧ decClick (some (1 / 2)) 50 ≤ 1) :=
  ⟨⟨by norm_num [currentParamValue], by norm_num [currentParamValue]⟩,
    (paramControls_amended (some (1 / 2)) 50).2.2.1
      (by norm_num [currentParamValue]) (by norm_num [currentParamValue])⟩

/-! Helper lemmas about the ascending insertion sort modelling
`sort((a, b) => a - b)`. -/

/-- Inserting is a permutation of consing. -/
theorem insertAsc_perm (x : ℚ) (l : List ℚ) : (insertAsc x l).Perm (x :: l) := by
  induction l with
  | nil => exact List.Perm.refl _
  | cons y ys ih =>
    by_cases h : x ≤ y
    · simp [insertAsc, h]
    · simp only [insertAsc, if_neg h]
      exact (ih.cons y).trans (List.Perm.swap x y ys)

/-- Inserting into an ascending list keeps it ascending. -/
theorem insertAsc_sorted {x : ℚ} {l : List ℚ} (h : l.Sorted (· ≤ ·)) :
    (insertAsc x l).Sorted (· ≤ ·) := by
  induction l with
  | nil => simp [insertAsc]
  | cons y ys ih =>
    rw [List.sorted_cons] at h
    obtain ⟨hy, hys⟩ := h
    by_cases hxy : x ≤ y
    · simp only [insertAsc, if_pos hxy, List.sorted_cons]
      refine ⟨fun b hb => ?_, hy, hys⟩
      rcases List.mem_cons.mp hb with rfl | hb
      · exact hxy
      · exact le_trans hxy (hy b hb)
    · push_neg at hxy
      simp only [insertAsc, if_neg (not_le.mpr hxy), List.sorted_cons]
      refine ⟨fun b hb => ?_, ih hys⟩
      rcases List.mem_cons.mp ((insertAsc_perm x ys).mem_iff.mp hb) with rfl | hb
      · exact le_of_lt hxy
      · exact hy b hb

/-- `sortAsc` permutes its input. -/
theorem sortAsc_perm (l : List ℚ) : (sortAsc l).Perm l := by
  induction l with
  | nil => exact List.Perm.refl _
  | cons a l ih => exact (insertAsc_perm a (sortAsc l)).trans (ih.cons a)

/-- `sortAsc` sorts ascending. -/
theorem sortAsc_sorted (l : List ℚ) : (sortAsc l).Sorted (· ≤ ·) := by
  induction l with
  | nil => simp [sortAsc]
  | cons a l ih => exact insertAsc_sorted ih

/-- C8: `calculateStats` returns all zeros with count 0 on the empty sample,
and otherwise — for any ascending rearrangement `sorted` of the sample — the
arithmetic mean, the middle element of `sorted` (average of the two middle
elements at even length), the elements of `sorted` at indices
`Math.floor(0.25 n)` and `Math.floor(0.75 n)`, the population variance
(divisor `n`, not `n - 1`; the source takes `std` as its square root), and the
sample length. -/
theorem calculateStats_spec :
    calculateStats [] =
      { mean := 0, median := 0, p25 := 0, p75 := 0, variance := 0, count := 0 } ∧
    ∀ (data sorted : List ℚ), data ≠ [] → sorted.Perm data →
      sorted.Sorted (· ≤ ·) →
      calculateStats data =
        { mean := data.sum / (data.length : ℚ)
          median :=
            if data.length % 2 = 0 then
              (sorted.getD (data.length / 2 - 1) 0 + sorted.getD (data.length / 2) 0) / 2
            else sorted.getD (data.length / 2) 0
          p25 := sorted.getD (data.length / 4) 0
          p75 := sorted.getD (3 * data.length / 4) 0
          variance :=
            (data.map (fun val => (val - data.sum / (data.length : ℚ)) ^ 2)).sum /
              (data.length : ℚ)
          count := data.length } := by
  constructor
  · rfl
  · intro data sorted hne hperm hsorted
    have hsort : sorted = sortAsc data :=
      List.eq_of_perm_of_sorted (hperm.trans (sortAsc_perm data).symm) hsorted
        (sortAsc_sorted data)
    have hlen : (sortAsc data).length = data.length := (sortAsc_perm data).length_eq
    subst hsort
    unfold calculateStats
    rw [if_neg (by simpa using hne)]
    simp only [hlen]

/-- Witness for C8 at the sample `[3, 1, 2]` with ascending rearrangement
`[1, 2, 3]`. -/
theorem calculateStats_spec_witness :
    (([3, 1, 2] : List ℚ) ≠ [] ∧ ([1, 2, 3] : List ℚ).Perm [3, 1, 2] ∧
      ([1, 2, 3] : List ℚ).Sorted (· ≤ ·)) ∧
    calculateStats ([3, 1, 2] : List ℚ) =
      { mean := (([3, 1, 2] : List ℚ)).sum / ((([3, 1, 2] : List ℚ)).length : ℚ)
        median :=
          if ([3, 1, 2] : List ℚ).length % 2 = 0 then
            (([1, 2, 3] : List ℚ).getD (([3, 1, 2] : List ℚ).length / 2 - 1) 0 +
              ([1, 2, 3] : List ℚ).getD (([3, 1, 2] : List ℚ).length / 2) 0) / 2
          else ([1, 2, 3] : List ℚ).getD (([3, 1, 2] : List ℚ).length / 2) 0
        p25 := ([1, 2, 3] : List ℚ).getD (([3, 1, 2] : List ℚ).length / 4) 0
        p75 := ([1, 2, 3] : List ℚ).getD (3 * ([3, 1, 2] : List ℚ).length / 4) 0
        variance :=
          (([3, 1, 2] : List ℚ).map
            (fun val => (val - ([3, 1, 2] : List ℚ).sum /
              ((([3, 1, 2] : List ℚ)).length : ℚ)) ^ 2)).sum /
            ((([3, 1, 2] : List ℚ)).length : ℚ)
        count := ([3, 1, 2] : List ℚ).length } :=
  ⟨⟨by decide, by decide, by decide⟩,
    calculateStats_spec.2 [3, 1, 2] [1, 2, 3] (by decide) (by decide) (by decide)⟩

/-! Helper lemmas for the CSV quoting round trip. -/

/-- Unfolding of `halveChars` on the empty list. -/
theorem halveChars_nil : halveChars [] = [] := by
  rw [halveChars]

/-- Unfolding of `halveChars` on a single character. -/
theorem halveChars_one (c : Char) : halveChars [c] = [c] := by
  rw [halveChars]

/-- Unfolding of `halveChars` on a list of length at least two. -/
theorem halveChars_cons2 (c1 c2 : Char) (rest : List Char) :
    halveChars (c1 :: c2 :: rest) =
      if c1 = '"' ∧ c2 = '"' then '"' :: halveChars rest
      else c1 :: halveChars (c2 :: rest) := by
  rw [halveChars]

/-- Halving doubled quotes undoes doubling them. -/
theorem halve_double (cs : List Char) : halveChars (doubleChars cs) = cs := by
  induction cs with
  | nil => exact halveChars_nil
  | cons c cs ih =>
    by_cases h : c = '"'
    · subst h
      rw [doubleChars, if_pos rfl, halveChars_cons2, if_pos ⟨rfl, rfl⟩, ih]
    · rw [doubleChars, if_neg h]
      cases hd : doubleChars cs with
      | nil =>
        have hnil : cs = [] := by
          cases cs with
          | nil => rfl
          | cons d ds =>
            rw [doubleChars] at hd
            by_cases hdq : d = '"' <;> simp [hdq] at hd
        subst hnil
        exact halveChars_one c
      | cons d ds =>
        rw [halveChars_cons2, if_neg (fun hc => h hc.1), ← hd, ih]

/-- C9: `convertToCSV` emits the column names joined by commas as the first
entry and one entry per data row, all joined by newlines; a null or undefined
cell serializes as the empty string; a cell whose text needs no quoting is
emitted verbatim; and unescaping a quoted cell (strip the outer quotes, halve
the doubled quotes) recovers the cell text exactly. -/
theorem convertToCSV_roundtrip :
    (∀ df : DataFrameJSON,
      convertToCSV df = String.intercalate "\n"
        (String.intercalate "," df.columns :: df.data.map (csvRow df.columns)) ∧
      (df.data.map (csvRow df.columns)).length = df.data.length) ∧
    escapeCell none = "" ∧
    (∀ s, needsEscape s = false → escapeCell (some s) = s) ∧
    (∀ s, needsEscape s = true → unescapeQuoted (escapeCell (some s)) = s) := by
  refine ⟨fun df => ⟨rfl, List.length_map _ _⟩, rfl,
    fun s h => by simp [escapeCell, h], fun s h => ?_⟩
  have hesc : escapeCell (some s) = "\"" ++ doubleQuotes s ++ "\"" := by
    simp [escapeCell, h]
  rw [hesc]
  unfold unescapeQuoted
  have hdata : ("\"" ++ doubleQuotes s ++ "\"").data =
      '"' :: (doubleChars s.data ++ ['"']) := by
    simp [String.data_append, doubleQuotes]
  rw [hdata]
  have hdrop : ('"' :: (doubleChars s.data ++ ['"'])).drop 1 =
      doubleChars s.data ++ ['"'] := rfl
  rw [hdrop, List.dropLast_concat, halve_double]

/-- Witness for C9: the cell text `a,"b` (containing a comma and a quote) is
quoted with its quote doubled, and unescaping recovers it; the text `plain`
passes through verbatim. -/
theorem convertToCSV_roundtrip_witness :
    needsEscape "a,\"b" = true ∧
    unescapeQuoted (escapeCell (some "a,\"b")) = "a,\"b" ∧
    needsEscape "plain" = false ∧
    escapeCell (some "plain") = "plain" :=
  ⟨by decide, convertToCSV_roundtrip.2.2.2 "a,\"b" (by decide), by decide,
    convertToCSV_roundtrip.2.2.1 "plain" (by decide)⟩

/-! Helper lemmas about the association-list model of JS objects. -/

/-- Lookup after updating the same key. -/
theorem lookupA_updA_self {α : Type} (k : String) (f : α → α) (l : List (String × α)) :
    lookupA k (updA k f l) = (lookupA k l).map f := by
  induction l with
  | nil => rfl
  | cons e rest ih =>
    obtain ⟨k1, v⟩ := e
    by_cases h : k1 = k
    · subst h; simp [updA, lookupA]
    · simp [updA, lookupA, h, ih]

/-- Lookup after updating a different key. -/
theorem lookupA_updA_ne {α : Type} {k kk : String} (h : k ≠ kk) (f : α → α)
    (l : List (String × α)) : lookupA k (updA kk f l) = lookupA k l := by
  induction l with
  | nil => rfl
  | cons e rest ih =>
    obtain ⟨k1, v⟩ := e
    simp only [updA]
    by_cases h1 : k1 = kk
    · rw [if_pos h1]
      have hne : k1 ≠ k := by rw [h1]; exact fun hh => h hh.symm
      simp [lookupA, hne]
    · rw [if_neg h1]
      simp only [lookupA, ih]

/-- Updating preserves the key list. -/
theorem keys_updA {α : Type} (k : String) (f : α → α) (l : List (String × α)) :
    (updA k f l).map Prod.fst = l.map Prod.fst := by
  induction l with
  | nil => rfl
  | cons e rest ih =>
    obtain ⟨k1, v⟩ := e
    by_cases h : k1 = k <;> simp [updA, h, ih]

/-- Lookup distributes over append, preferring the left list. -/
theorem lookupA_append {α : Type} (k : String) (l1 l2 : List (String × α)) :
    lookupA k (l1 ++ l2) =
      if (lookupA k l1).isSome then lookupA k l1 else lookupA k l2 := by
  induction l1 with
  | nil => simp [lookupA]
  | cons e rest ih =>
    obtain ⟨k1, v⟩ := e
    by_cases h : k1 = k <;> simp [lookupA, h, ih]

/-- A key looks up to something exactly when it is among the keys. -/
theorem lookupA_isSome_iff {α : Type} (k : String) (l : List (String × α)) :
    (lookupA k l).isSome = true ↔ k ∈ l.map Prod.fst := by
  induction l with
  | nil => simp [lookupA]
  | cons e rest ih =>
    obtain ⟨k1, v⟩ := e
    simp only [lookupA, List.map_cons, List.mem_cons]
    by_cases h : k1 = k
    · subst h; simp
    · rw [if_neg h]
      constructor
      · intro hs; exact Or.inr (ih.mp hs)
      · rintro (rfl | hm)
        · exact absurd rfl h
        · exact ih.mpr hm

/-- A key looks up to nothing exactly when it is not among the keys. -/
theorem lookupA_eq_none_iff {α : Type} (k : String) (l : List (String × α)) :
    lookupA k l = none ↔ k ∉ l.map Prod.fst := by
  rw [← lookupA_isSome_iff]
  cases lookupA k l <;> simp

/-! No-series branch lemmas. -/

/-- Unfolding the accumulation fold. -/
theorem nsAdd_cons (y : String) (ys : List String) (r : CRow)
    (rcd : List (String × ℚ)) :
    nsAdd (y :: ys) r rcd = nsAdd ys r (updA y (fun v => v + toNum (r.yval y)) rcd) :=
  rfl

/-- Accumulating a row preserves the metric keys of a record. -/
theorem keys_nsAdd (yAxes : List String) (r : CRow) :
    ∀ rcd : List (String × ℚ), (nsAdd yAxes r rcd).map Prod.fst = rcd.map Prod.fst := by
  induction yAxes with
  | nil => intro rcd; rfl
  | cons y ys ih => intro rcd; rw [nsAdd_cons, ih, keys_updA]

/-- Value of a record after accumulating one row, metric by metric. -/
theorem lookupA_nsAdd (yAxes : List String) (r : CRow) :
    ∀ (rcd : List (String × ℚ)) (y : String), yAxes.Nodup →
      lookupA y (nsAdd yAxes r rcd) =
        if y ∈ yAxes then (lookupA y rcd).map (· + toNum (r.yval y))
        else lookupA y rcd := by
  induction yAxes with
  | nil => intro rcd y _; simp [nsAdd]
  | cons a ys ih =>
    intro rcd y hnd
    obtain ⟨ha, hys⟩ := List.nodup_cons.mp hnd
    rw [nsAdd_cons]
    by_cases hya : y = a
    · subst hya
      rw [ih _ _ hys, if_neg ha, lookupA_updA_self,
        if_pos (List.mem_cons_self y ys)]
    · rw [ih _ _ hys, lookupA_updA_ne hya]
      by_cases hmem : y ∈ ys
      · rw [if_pos hmem, if_pos (List.mem_cons.mpr (Or.inr hmem))]
      · rw [if_neg hmem, if_neg (by simp [hya, hmem])]

/-- Every selected metric starts at 0 in a freshly initialized record. -/
theorem lookupA_nsZero (yAxes : List String) (y : String) :
    y ∈ yAxes → lookupA y (nsZero yAxes) = some 0 := by
  induction yAxes with
  | nil => simp
  | cons a ys ih =>
    intro hy
    simp only [nsZero, List.map_cons, lookupA]
    by_cases h : a = y
    · rw [if_pos h]
    · rw [if_neg h]
      have hm : y ∈ ys := by
        rcases List.mem_cons.mp hy with rfl | hm
        · exact absurd rfl h
        · exact hm
      simpa [nsZero] using ih hm

/-- Appending one row extends the per-x metric sum by that row's contribution
when the x-value matches. -/
theorem nsSum_append_last (ps : List CRow) (r : CRow) (x y : String) :
    nsSum (ps ++ [r]) x y =
      nsSum ps x y + (if r.xval == x then toNum (r.yval y) else 0) := by
  unfold nsSum
  rw [List.filter_append]
  by_cases h : r.xval = x <;> simp [h]

/-- The per-x metric sum vanishes when no row has that x-value. -/
theorem nsSum_eq_zero (ps : List CRow) (x y : String)
    (hx : x ∉ ps.map CRow.xval) : nsSum ps x y = 0 := by
  unfold nsSum
  have hnil : ps.filter (fun r => r.xval == x) = [] := by
    rw [List.filter_eq_nil_iff]
    intro a ha
    simp only [beq_iff_eq]
    exact fun hax => hx (List.mem_map.mpr ⟨a, ha, hax⟩)
  rw [hnil]
  rfl

/-- The invariant the no-series fold maintains: the records are keyed by the
distinct x-values of the processed rows, each holding the per-metric sums. -/
def NSInv (yAxes : List String) (ps : List CRow)
    (g : List (String × List (String × ℚ))) : Prop :=
  (g.map Prod.fst).Nodup ∧
  (∀ x, x ∈ g.map Prod.fst ↔ x ∈ ps.map CRow.xval) ∧
  (∀ x rcd, lookupA x g = some rcd → ∀ y ∈ yAxes,
    lookupA y rcd = some (nsSum ps x y))

/-- One no-series step preserves the invariant. -/
theorem nsStep_inv (yAxes : List String) (hnd : yAxes.Nodup) (ps : List CRow)
    (g : List (String × List (String × ℚ))) (r : CRow) (h : NSInv yAxes ps g) :
    NSInv yAxes (ps ++ [r]) (nsStep yAxes g r) := by
  obtain ⟨hnod, hmem, hval⟩ := h
  unfold nsStep
  by_cases hx : (lookupA r.xval g).isSome
  · rw [if_pos hx]
    have hxin : r.xval ∈ ps.map CRow.xval :=
      (hmem _).mp ((lookupA_isSome_iff _ _).mp hx)
    refine ⟨by rw [keys_updA]; exact hnod, ?_, ?_⟩
    · intro x
      rw [keys_updA, hmem x, List.map_append]
      simp only [List.map_cons, List.map_nil, List.mem_append,
        List.mem_singleton]
      constructor
      · exact Or.inl
      · rintro (hm | rfl)
        · exact hm
        · exact hxin
    · intro x rcd hrcd y hy
      by_cases hxx : x = r.xval
      · subst hxx
        rw [lookupA_updA_self] at hrcd
        cases hg : lookupA r.xval g with
        | none => rw [hg] at hrcd; simp at hrcd
        | some rcd0 =>
          rw [hg] at hrcd
          simp only [Option.map_some', Option.some.injEq] at hrcd
          subst hrcd
          rw [lookupA_nsAdd yAxes r rcd0 y hnd, if_pos hy,
            hval r.xval rcd0 hg y hy, nsSum_append_last]
          simp
      · rw [lookupA_updA_ne hxx] at hrcd
        rw [hval x rcd hrcd y hy, nsSum_append_last]
        have hb : (r.xval == x) = false :=
          beq_eq_false_iff_ne.mpr (fun hh => hxx hh.symm)
        simp [hb]
  · rw [if_neg hx]
    have hxg : lookupA r.xval g = none := by
      cases hg : lookupA r.xval g with
      | none => rfl
      | some w => rw [hg] at hx; simp at hx
    have hxnotin : r.xval ∉ g.map Prod.fst := (lookupA_eq_none_iff _ _).mp hxg
    have hxnotps : r.xval ∉ ps.map CRow.xval := fun hc => hxnotin ((hmem _).mpr hc)
    refine ⟨?_, ?_, ?_⟩
    · rw [keys_updA, List.map_append]
      simp [List.nodup_append, hnod, hxnotin]
    · intro x
      rw [keys_updA, List.map_append, List.map_append]
      simp only [List.map_cons, List.map_nil, List.mem_append,
        List.mem_singleton]
      rw [hmem x]
    · intro x rcd hrcd y hy
      by_cases hxx : x = r.xval
      · subst hxx
        rw [lookupA_updA_self, lookupA_append, hxg] at hrcd
        simp only [Option.isSome_none, Bool.false_eq_true, if_false] at hrcd
        have hone : lookupA r.xval [(r.xval, nsZero yAxes)] = some (nsZero yAxes) := by
          simp [lookupA]
        rw [hone] at hrcd
        simp only [Option.map_some', Option.some.injEq] at hrcd
        subst hrcd
        rw [lookupA_nsAdd yAxes r _ y hnd, if_pos hy, lookupA_nsZero yAxes y hy,
          nsSum_append_last, nsSum_eq_zero ps r.xval y hxnotps]
        simp
      · rw [lookupA_updA_ne hxx, lookupA_append] at hrcd
        by_cases hg : (lookupA x g).isSome
        · rw [if_pos hg] at hrcd
          rw [hval x rcd hrcd y hy, nsSum_append_last]
          have hb : (r.xval == x) = false :=
            beq_eq_false_iff_ne.mpr (fun hh => hxx hh.symm)
          simp [hb]
        · rw [if_neg hg] at hrcd
          have hne2 : r.xval ≠ x := fun hh => hxx hh.symm
          have hnone : lookupA x [(r.xval, nsZero yAxes)] = none := by
            simp [lookupA, hne2]
          rw [hnone] at hrcd
          cases hrcd

/-- The no-series fold maintains the invariant over any row list. -/
theorem nsFold_inv (yAxes : List String) (hnd : yAxes.Nodup) :
    ∀ (rows ps : List CRow) (g : List (String × List (String × ℚ))),
      NSInv yAxes ps g → NSInv yAxes (ps ++ rows) (rows.foldl (nsStep yAxes) g) := by
  intro rows
  induction rows with
  | nil => intro ps g h; simpa using h
  | cons r rows ih =>
    intro ps g h
    have h3 := ih (ps ++ [r]) (nsStep yAxes g r) (nsStep_inv yAxes hnd ps g r h)
    simpa [List.append_assoc] using h3

/-! Series branch lemmas. -/

/-- Unfolding the series accumulation fold. -/
theorem srAdd_cons (y : String) (ys : List String) (r : CRow)
    (rcd : List (String × ℚ)) :
    srAdd (y :: ys) r rcd =
      srAdd ys r (upsertAdd (sKey y r.sval) (toNum (r.yval y)) rcd) :=
  rfl

/-- Unfolding the per-row contribution over the metric list. -/
theorem srContrib_cons (y : String) (ys : List String) (k : String) (r : CRow) :
    srContrib (y :: ys) k r =
      (if sKey y r.sval == k then toNum (r.yval y) else 0) + srContrib ys k r := by
  unfold srContrib
  rw [List.filter_cons]
  cases h : (sKey y r.sval == k) <;> simp [h]

/-- Upserting the same key adds onto its (defaulted) value. -/
theorem lookupA_upsertAdd_self (k : String) (v : ℚ) (l : List (String × ℚ)) :
    lookupA k (upsertAdd k v l) = some ((lookupA k l).getD 0 + v) := by
  unfold upsertAdd
  cases h : lookupA k l with
  | some old => rw [lookupA_updA_self, h]; rfl
  | none =>
    rw [lookupA_append, h]
    simp [lookupA]

/-- Upserting another key leaves a lookup unchanged. -/
theorem lookupA_upsertAdd_ne {k kk : String} (h : k ≠ kk) (v : ℚ)
    (l : List (String × ℚ)) : lookupA k (upsertAdd kk v l) = lookupA k l := by
  unfold upsertAdd
  cases hkk : lookupA kk l with
  | some old => rw [lookupA_updA_ne h]
  | none =>
    rw [lookupA_append]
    have hne : kk ≠ k := fun hh => h hh.symm
    have hone : lookupA k [(kk, v)] = none := by
      simp [lookupA, hne]
    rw [hone]
    cases hk : lookupA k l <;> simp

/-- Upserting preserves distinctness of the keys. -/
theorem keys_nodup_upsertAdd (kk : String) (v : ℚ) (l : List (String × ℚ))
    (h : (l.map Prod.fst).Nodup) : ((upsertAdd kk v l).map Prod.fst).Nodup := by
  unfold upsertAdd
  cases hkk : lookupA kk l with
  | some old => rw [keys_updA]; exact h
  | none =>
    rw [List.map_append]
    simp [List.nodup_append, h, (lookupA_eq_none_iff _ _).mp hkk]

/-- Accumulating a row preserves distinctness of a record's keys. -/
theorem keys_nodup_srAdd (yAxes : List String) (r : CRow) :
    ∀ rcd : List (String × ℚ), (rcd.map Prod.fst).Nodup →
      ((srAdd yAxes r rcd).map Prod.fst).Nodup := by
  induction yAxes with
  | nil => intro rcd h; exact h
  | cons y ys ih =>
    intro rcd h
    rw [srAdd_cons]
    exact ih _ (keys_nodup_upsertAdd _ _ _ h)

/-- Value after accumulating a row at a key the record already holds. -/
theorem lookupA_srAdd_some (yAxes : List String) (r : CRow) :
    ∀ (rcd : List (String × ℚ)) (k : String) (old : ℚ), lookupA k rcd = some old →
      lookupA k (srAdd yAxes r rcd) = some (old + srContrib yAxes k r) := by
  induction yAxes with
  | nil => intro rcd k old h; simp [srAdd, srContrib, h]
  | cons y ys ih =>
    intro rcd k old h
    rw [srAdd_cons]
    by_cases hk : sKey y r.sval = k
    · have h2 : lookupA k (upsertAdd (sKey y r.sval) (toNum (r.yval y)) rcd)
          = some (old + toNum (r.yval y)) := by
        rw [hk, lookupA_upsertAdd_self, h]
        rfl
      rw [ih _ _ _ h2, srContrib_cons]
      simp [hk, add_assoc]
    · have h2 : lookupA k (upsertAdd (sKey y r.sval) (toNum (r.yval y)) rcd)
          = some old := by
        rw [lookupA_upsertAdd_ne (fun hh => hk hh.symm), h]
      rw [ih _ _ _ h2, srContrib_cons]
      have hb : (sKey y r.sval == k) = false := beq_eq_false_iff_ne.mpr hk
      simp [hb]

/-- Value after accumulating a row at a key the record does not hold yet. -/
theorem lookupA_srAdd_none (yAxes : List String) (r : CRow) :
    ∀ (rcd : List (String × ℚ)) (k : String), lookupA k rcd = none →
      lookupA k (srAdd yAxes r rcd) =
        if yAxes.any (fun y => sKey y r.sval == k) then
          some (srContrib yAxes k r)
        else none := by
  induction yAxes with
  | nil => intro rcd k h; simp [srAdd, h]
  | cons y ys ih =>
    intro rcd k h
    rw [srAdd_cons]
    by_cases hk : sKey y r.sval = k
    · have h2 : lookupA k (upsertAdd (sKey y r.sval) (toNum (r.yval y)) rcd)
          = some (toNum (r.yval y)) := by
        rw [hk, lookupA_upsertAdd_self, h]
        simp
      rw [lookupA_srAdd_some ys r _ _ _ h2, srContrib_cons]
      simp [hk, List.any_cons]
    · have h2 : lookupA k (upsertAdd (sKey y r.sval) (toNum (r.yval y)) rcd)
          = none := by
        rw [lookupA_upsertAdd_ne (fun hh => hk hh.symm), h]
      rw [ih _ _ h2, srContrib_cons]
      have hb : (sKey y r.sval == k) = false := beq_eq_false_iff_ne.mpr hk
      simp [hb, List.any_cons]

/-- Appending one row extends the per-x key sum by that row's contribution
when the x-value matches. -/
theorem srSum_append_last (yAxes : List String) (ps : List CRow) (r : CRow)
    (x k : String) :
    srSum yAxes (ps ++ [r]) x k =
      srSum yAxes ps x k + (if r.xval == x then srContrib yAxes k r else 0) := by
  unfold srSum
  rw [List.filter_append]
  by_cases h : r.xval = x <;> simp [h]

/-- The per-x key sum vanishes when no row has that x-value. -/
theorem srSum_eq_zero (yAxes : List String) (ps : List CRow) (x k : String)
    (hx : x ∉ ps.map CRow.xval) : srSum yAxes ps x k = 0 := by
  unfold srSum
  have hnil : ps.filter (fun r => r.xval == x) = [] := by
    rw [List.filter_eq_nil_iff]
    intro a ha
    simp only [beq_iff_eq]
    exact fun hax => hx (List.mem_map.mpr ⟨a, ha, hax⟩)
  rw [hnil]
  rfl

/-- The per-x key sum vanishes when no row with that x-value produces the
key. -/
theorem srSum_eq_zero_of_no_key (yAxes : List String) (ps : List CRow)
    (x k : String)
    (h : ∀ r' ∈ ps, r'.xval = x → ∀ y ∈ yAxes, sKey y r'.sval ≠ k) :
    srSum yAxes ps x k = 0 := by
  unfold srSum
  refine List.sum_eq_zero ?_
  intro q hq
  obtain ⟨r', hr', rfl⟩ := List.mem_map.mp hq
  have hmf := List.mem_filter.mp hr'
  have hx' : r'.xval = x := by simpa using hmf.2
  unfold srContrib
  have hnil : yAxes.filter (fun y => sKey y r'.sval == k) = [] := by
    rw [List.filter_eq_nil_iff]
    intro y hy
    simp only [beq_iff_eq]
    exact h r' hmf.1 hx' y hy
  rw [hnil]
  rfl

/-- The membership form of the key condition. -/
theorem any_sKey_iff (yAxes : List String) (r : CRow) (k : String) :
    yAxes.any (fun y => sKey y r.sval == k) = true ↔
      ∃ y ∈ yAxes, sKey y r.sval = k := by
  simp [List.any_eq_true]

/-- The invariant the series fold maintains: records keyed by the distinct
x-values of the processed rows, each holding exactly the keys produced by
some processed row with that x-value, with the accumulated sums as values. -/
def SRInv (yAxes : List String) (ps : List CRow)
    (g : List (String × List (String × ℚ))) : Prop :=
  (g.map Prod.fst).Nodup ∧
  (∀ x, x ∈ g.map Prod.fst ↔ x ∈ ps.map CRow.xval) ∧
  (∀ x rcd, lookupA x g = some rcd →
    (rcd.map Prod.fst).Nodup ∧
    (∀ k, (lookupA k rcd).isSome = true ↔
      ∃ r' ∈ ps, r'.xval = x ∧ ∃ y ∈ yAxes, sKey y r'.sval = k) ∧
    (∀ k v, lookupA k rcd = some v → v = srSum yAxes ps x k))

/-- One series step preserves the invariant. -/
theorem srStep_inv (yAxes : List String) (ps : List CRow)
    (g : List (String × List (String × ℚ))) (r : CRow) (h : SRInv yAxes ps g) :
    SRInv yAxes (ps ++ [r]) (srStep yAxes g r) := by
  obtain ⟨hnod, hmem, hval⟩ := h
  unfold srStep
  by_cases hx : (lookupA r.xval g).isSome
  · rw [if_pos hx]
    have hxin : r.xval ∈ ps.map CRow.xval :=
      (hmem _).mp ((lookupA_isSome_iff _ _).mp hx)
    refine ⟨by rw [keys_updA]; exact hnod, ?_, ?_⟩
    · intro x
      rw [keys_updA, hmem x, List.map_append]
      simp only [List.map_cons, List.map_nil, List.mem_append, List.mem_singleton]
      constructor
      · exact Or.inl
      · rintro (hm | rfl)
        · exact hm
        · exact hxin
    · intro x rcd hrcd
      by_cases hxx : x = r.xval
      · subst hxx
        rw [lookupA_updA_self] at hrcd
        cases hg : lookupA r.xval g with
        | none => rw [hg] at hrcd; simp at hrcd
        | some rcd0 =>
          rw [hg] at hrcd
          simp only [Option.map_some', Option.some.injEq] at hrcd
          subst hrcd
          obtain ⟨hn0, hk0, hv0⟩ := hval r.xval rcd0 hg
          refine ⟨keys_nodup_srAdd yAxes r rcd0 hn0, ?_, ?_⟩
          · intro k
            cases h0 : lookupA k rcd0 with
            | some old =>
              rw [lookupA_srAdd_some yAxes r rcd0 k old h0]
              simp only [Option.isSome_some, true_iff]
              obtain ⟨r1, hr1, hxr1, hy1⟩ := (hk0 k).mp (by rw [h0]; rfl)
              exact ⟨r1, List.mem_append.mpr (Or.inl hr1), hxr1, hy1⟩
            | none =>
              rw [lookupA_srAdd_none yAxes r rcd0 k h0]
              by_cases hany : yAxes.any (fun y => sKey y r.sval == k) = true
              · rw [if_pos hany]
                simp only [Option.isSome_some, true_iff]
                obtain ⟨y, hy, hky⟩ := (any_sKey_iff yAxes r k).mp hany
                exact ⟨r, List.mem_append.mpr (Or.inr (by simp)), rfl, y, hy, hky⟩
              · rw [if_neg hany]
                simp only [Option.isSome_none, Bool.false_eq_true, false_iff]
                rintro ⟨r1, hr1, hxr1, y, hy, hky⟩
                rcases List.mem_append.mp hr1 with hps | hr1
                · have hs : (lookupA k rcd0).isSome = true :=
                    (hk0 k).mpr ⟨r1, hps, hxr1, y, hy, hky⟩
                  rw [h0] at hs
                  simp at hs
                · have hr1r : r1 = r := by simpa using hr1
                  exact hany ((any_sKey_iff yAxes r k).mpr ⟨y, hy, hr1r ▸ hky⟩)
          · intro k v hkv
            cases h0 : lookupA k rcd0 with
            | some old =>
              rw [lookupA_srAdd_some yAxes r rcd0 k old h0] at hkv
              simp only [Option.some.injEq] at hkv
              subst hkv
              rw [hv0 k old h0, srSum_append_last]
              simp
            | none =>
              rw [lookupA_srAdd_none yAxes r rcd0 k h0] at hkv
              by_cases hany : yAxes.any (fun y => sKey y r.sval == k) = true
              · rw [if_pos hany] at hkv
                simp only [Option.some.injEq] at hkv
                subst hkv
                have hzero : srSum yAxes ps r.xval k = 0 := by
                  refine srSum_eq_zero_of_no_key yAxes ps r.xval k ?_
                  intro r1 hr1 hxr1 y hy hky
                  have hs : (lookupA k rcd0).isSome = true :=
                    (hk0 k).mpr ⟨r1, hr1, hxr1, y, hy, hky⟩
                  rw [h0] at hs
                  simp at hs
                rw [srSum_append_last, hzero]
                simp
              · rw [if_neg hany] at hkv
                cases hkv
      · rw [lookupA_updA_ne hxx] at hrcd
        obtain ⟨hn0, hk0, hv0⟩ := hval x rcd hrcd
        have hbx : (r.xval == x) = false :=
          beq_eq_false_iff_ne.mpr (fun hh => hxx hh.symm)
        refine ⟨hn0, ?_, ?_⟩
        · intro k
          rw [hk0 k]
          constructor
          · rintro ⟨r1, hr1, hxr1, hy⟩
            exact ⟨r1, List.mem_append.mpr (Or.inl hr1), hxr1, hy⟩
          · rintro ⟨r1, hr1, hxr1, hy⟩
            rcases List.mem_append.mp hr1 with hps | hr1
            · exact ⟨r1, hps, hxr1, hy⟩
            · have hr1r : r1 = r := by simpa using hr1
              subst hr1r
              exact absurd hxr1 (fun hh => hxx hh.symm)
        · intro k v hkv
          rw [hv0 k v hkv, srSum_append_last]
          simp [hbx]
  · rw [if_neg hx]
    have hxg : lookupA r.xval g = none := by
      cases hg : lookupA r.xval g with
      | none => rfl
      | some w => rw [hg] at hx; simp at hx
    have hxnotin : r.xval ∉ g.map Prod.fst := (lookupA_eq_none_iff _ _).mp hxg
    have hxnotps : r.xval ∉ ps.map CRow.xval := fun hc => hxnotin ((hmem _).mpr hc)
    refine ⟨?_, ?_, ?_⟩
    · rw [keys_updA, List.map_append]
      simp [List.nodup_append, hnod, hxnotin]
    · intro x
      rw [keys_updA, List.map_append, List.map_append]
      simp only [List.map_cons, List.map_nil, List.mem_append, List.mem_singleton]
      rw [hmem x]
    · intro x rcd hrcd
      by_cases hxx : x = r.xval
      · subst hxx
        rw [lookupA_updA_self, lookupA_append, hxg] at hrcd
        simp only [Option.isSome_none, Bool.false_eq_true, if_false] at hrcd
        have hone : lookupA r.xval [(r.xval, ([] : List (String × ℚ)))] = some [] := by
          simp [lookupA]
        rw [hone] at hrcd
        simp only [Option.map_some', Option.some.injEq] at hrcd
        subst hrcd
        refine ⟨keys_nodup_srAdd yAxes r [] (by simp), ?_, ?_⟩
        · intro k
          have h0 : lookupA k ([] : List (String × ℚ)) = none := rfl
          rw [lookupA_srAdd_none yAxes r [] k h0]
          by_cases hany : yAxes.any (fun y => sKey y r.sval == k) = true
          · rw [if_pos hany]
            simp only [Option.isSome_some, true_iff]
            obtain ⟨y, hy, hky⟩ := (any_sKey_iff yAxes r k).mp hany
            exact ⟨r, List.mem_append.mpr (Or.inr (by simp)), rfl, y, hy, hky⟩
          · rw [if_neg hany]
            simp only [Option.isSome_none, Bool.false_eq_true, false_iff]
            rintro ⟨r1, hr1, hxr1, y, hy, hky⟩
            rcases List.mem_append.mp hr1 with hps | hr1
            · exact hxnotps (List.mem_map.mpr ⟨r1, hps, hxr1⟩)
            · have hr1r : r1 = r := by simpa using hr1
              exact hany ((any_sKey_iff yAxes r k).mpr ⟨y, hy, hr1r ▸ hky⟩)
        · intro k v hkv
          have h0 : lookupA k ([] : List (String × ℚ)) = none := rfl
          rw [lookupA_srAdd_none yAxes r [] k h0] at hkv
          by_cases hany : yAxes.any (fun y => sKey y r.sval == k) = true
          · rw [if_pos hany] at hkv
            simp only [Option.some.injEq] at hkv
            subst hkv
            rw [srSum_append_last, srSum_eq_zero yAxes ps r.xval k hxnotps]
            simp
          · rw [if_neg hany] at hkv
            cases hkv
      · rw [lookupA_updA_ne hxx, lookupA_append] at hrcd
        by_cases hg : (lookupA x g).isSome
        · rw [if_pos hg] at hrcd
          obtain ⟨hn0, hk0, hv0⟩ := hval x rcd hrcd
          have hbx : (r.xval == x) = false :=
            beq_eq_false_iff_ne.mpr (fun hh => hxx hh.symm)
          refine ⟨hn0, ?_, ?_⟩
          · intro k
            rw [hk0 k]
            constructor
            · rintro ⟨r1, hr1, hxr1, hy⟩
              exact ⟨r1, List.mem_append.mpr (Or.inl hr1), hxr1, hy⟩
            · rintro ⟨r1, hr1, hxr1, hy⟩
              rcases List.mem_append.mp hr1 with hps | hr1
              · exact ⟨r1, hps, hxr1, hy⟩
              · have hr1r : r1 = r := by simpa using hr1
                subst hr1r
                exact absurd hxr1 (fun hh => hxx hh.symm)
          · intro k v hkv
            rw [hv0 k v hkv, srSum_append_last]
            simp [hbx]
        · rw [if_neg hg] at hrcd
          have hne2 : r.xval ≠ x := fun hh => hxx hh.symm
          have hnone : lookupA x [(r.xval, ([] : List (String × ℚ)))] = none := by
            simp [lookupA, hne2]
          rw [hnone] at hrcd
          cases hrcd

/-- The series fold maintains the invariant over any row list. -/
theorem srFold_inv (yAxes : List String) :
    ∀ (rows ps : List CRow) (g : List (String × List (String × ℚ))),
      SRInv yAxes ps g → SRInv yAxes (ps ++ rows) (rows.foldl (srStep yAxes) g) := by
  intro rows
  induction rows with
  | nil => intro ps g h; simpa using h
  | cons r rows ih =>
    intro ps g h
    have h3 := ih (ps ++ [r]) (srStep yAxes g r) (srStep_inv yAxes ps g r h)
    simpa [List.append_assoc] using h3

/-- C5: the chart-builder grouping emits exactly one output record per
distinct x-axis value occurring in the input rows (distinct keys, membership
iff occurrence) and no record or metric × series-value key absent from the
input; each no-series metric value is the sum over the rows with that x-value
of the metric coerced to a number with non-coercible entries contributing 0
(`nsSum`), and each series-branch key value is the corresponding sum of
per-row contributions for that key (`srSum`). -/
theorem chartData_observed_groups (yAxes : List String) (rows : List CRow)
    (hY : yAxes ≠ []) (hnd : yAxes.Nodup) :
    ((chartDataNS yAxes rows).map Prod.fst).Nodup ∧
    (∀ x, x ∈ (chartDataNS yAxes rows).map Prod.fst ↔ x ∈ rows.map CRow.xval) ∧
    (∀ x rcd, lookupA x (chartDataNS yAxes rows) = some rcd →
      ∀ y ∈ yAxes, lookupA y rcd = some (nsSum rows x y)) ∧
    ((chartDataSR yAxes rows).map Prod.fst).Nodup ∧
    (∀ x, x ∈ (chartDataSR yAxes rows).map Prod.fst ↔ x ∈ rows.map CRow.xval) ∧
    (∀ x rcd, lookupA x (chartDataSR yAxes rows) = some rcd →
      (∀ k, (lookupA k rcd).isSome = true ↔
        ∃ r' ∈ rows, r'.xval = x ∧ ∃ y ∈ yAxes, sKey y r'.sval = k) ∧
      (∀ k v, lookupA k rcd = some v → v = srSum yAxes rows x k)) := by
  have hns : NSInv yAxes rows (chartDataNS yAxes rows) := by
    unfold chartDataNS
    rw [if_neg hY]
    have h0 : NSInv yAxes [] [] := by
      refine ⟨List.nodup_nil, by simp, ?_⟩
      intro x rcd hx
      cases hx
    simpa using nsFold_inv yAxes hnd rows [] [] h0
  have hsr : SRInv yAxes rows (chartDataSR yAxes rows) := by
    unfold chartDataSR
    rw [if_neg hY]
    have h0 : SRInv yAxes [] [] := by
      refine ⟨List.nodup_nil, by simp, ?_⟩
      intro x rcd hx
      cases hx
    simpa using srFold_inv yAxes rows [] [] h0
  obtain ⟨h1, h2, h3⟩ := hns
  obtain ⟨h4, h5, h6⟩ := hsr
  exact ⟨h1, h2, h3, h4, h5, fun x rcd hx => ⟨(h6 x rcd hx).2.1, (h6 x rcd hx).2.2⟩⟩

/-- Two projected rows sharing the x-value `d1`, with series values `s1`/`s2`
and metric column `m`. -/
def chartDemoRows : List CRow :=
  [ { xval := "d1", sval := "s1", yval := fun c => if c = "m" then some 2 else none }
  , { xval := "d1", sval := "s2", yval := fun c => if c = "m" then some 3 else none } ]

/-- Witness for C5 at one metric column and two concrete rows. -/
theorem chartData_observed_groups_witness :
    ((["m"] : List String) ≠ [] ∧ (["m"] : List String).Nodup) ∧
    (((chartDataNS ["m"] chartDemoRows).map Prod.fst).Nodup ∧
     (∀ x, x ∈ (chartDataNS ["m"] chartDemoRows).map Prod.fst ↔
        x ∈ chartDemoRows.map CRow.xval) ∧
     (∀ x rcd, lookupA x (chartDataNS ["m"] chartDemoRows) = some rcd →
        ∀ y ∈ (["m"] : List String), lookupA y rcd = some (nsSum chartDemoRows x y)) ∧
     ((chartDataSR ["m"] chartDemoRows).map Prod.fst).Nodup ∧
     (∀ x, x ∈ (chartDataSR ["m"] chartDemoRows).map Prod.fst ↔
        x ∈ chartDemoRows.map CRow.xval) ∧
     (∀ x rcd, lookupA x (chartDataSR ["m"] chartDemoRows) = some rcd →
        (∀ k, (lookupA k rcd).isSome = true ↔
          ∃ r' ∈ chartDemoRows, r'.xval = x ∧
            ∃ y ∈ (["m"] : List String), sKey y r'.sval = k) ∧
        (∀ k v, lookupA k rcd = some v → v = srSum ["m"] chartDemoRows x k))) :=
  ⟨⟨by decide, by decide⟩,
    chartData_observed_groups ["m"] chartDemoRows (by decide) (by decide)⟩

end LadooMetrics
